import Mathlib

/-!
Verification of the orchestration engine of `deep_research_from_scratch`.

The definitions below are a shallow embedding of the Python source:

* `src/deep_research_from_scratch/utils.py` — search pipeline
  (`ddgs_search_multiple`, `summarize_webpage_content`,
  `deduplicate_search_results`, `process_search_results`,
  `format_search_output`, the `ddgs_search` tool, `think_tool`);
* `src/deep_research_from_scratch/research_agent_scope.py` — brief
  generation with tiered fallback (`write_research_brief`).

External effects (the DDGS search provider, the language model behind
structured output and plain text generation, prompt construction which
folds in the current date) are modelled as function parameters ("oracles");
a call that may raise is a function into `Except`, and a Python
`try/except` block becomes a `match` on that `Except`.  Python `dict`s
(which preserve insertion order) are modelled as association lists with
dict-assignment semantics.  All embedded functions are total Lean
functions: every exception path of the corresponding Python code is either
caught inside the function or surfaced in the `Except` return type.
-/

namespace DeepResearch

/-- One raw document as returned by the DDGS provider: `result.get('title')`,
`result.get('href')`, `result.get('body')` may each be absent, which the
source defends against with `.get(key, '')`. -/
structure RawResult where
  title : Option String
  href : Option String
  body : Option String
deriving Repr, DecidableEq

/-- One formatted search result, as built in the loop of
`ddgs_search_multiple` (utils.py lines 91-97): `title`, `url`, `content`
are strings; `raw_content` is kept optional because downstream
`process_search_results` uses `result.get("raw_content")`, which is falsy
when the key is missing or the string is empty. -/
structure SearchResult where
  title : String
  url : String
  content : String
  raw_content : Option String
deriving Repr, DecidableEq

/-- The per-query response dictionary `{'results': [...]}`. -/
structure SearchResponse where
  results : List SearchResult
deriving Repr, DecidableEq

/-- utils.py lines 91-97: convert one DDGS raw result to the expected
format.  `raw_content` is set to the same string as `content` because
DDGS does not provide separate raw content. -/
def formatRawResult (r : RawResult) : SearchResult :=
  { title := r.title.getD ""
    url := r.href.getD ""
    content := r.body.getD ""
    raw_content := some (r.body.getD "") }

/-- The search provider `ddgs_client.text(query, max_results, region,
safesearch)`, an external effect: it may raise (`Except.error`) or return
a list of raw documents. -/
def Provider (ε : Type) : Type :=
  String → Nat → String → String → Except ε (List RawResult)

/-- utils.py lines 51-109, `ddgs_search_multiple`: execute the queries
sequentially, appending one response per query to `search_docs`; the
provider call for each query sits in a `try/except` whose handler appends
`{'results': []}`, so no provider error escapes the loop and the function
itself never raises (everything after the loop is pure logging). -/
def ddgs_search_multiple (provider : Provider ε) (search_queries : List String)
    (max_results : Nat := 3) (region : String := "us-en")
    (safesearch : String := "moderate") : List SearchResponse :=
  search_queries.foldl
    (fun search_docs query =>
      search_docs ++
        [match provider query max_results region safesearch with
          | Except.ok results => ⟨results.map formatRawResult⟩
          | Except.error _ => ⟨[]⟩])
    []

/-- utils.py lines 149-166, `deduplicate_search_results`, inner loop body:
insert `result` keyed by its URL only when the URL is not yet a key of the
accumulated dictionary (`if url not in unique_results`). -/
def dedupInsert (unique_results : List (String × SearchResult))
    (result : SearchResult) : List (String × SearchResult) :=
  if unique_results.any (fun p => p.1 = result.url) then unique_results
  else unique_results ++ [(result.url, result)]

/-- utils.py lines 149-166, `deduplicate_search_results`: iterate over all
responses and all results within each response (i.e. over the flattened
result list in query order), inserting each result under its URL only if
that URL has not been seen. -/
def deduplicate_search_results (search_results : List SearchResponse) :
    List (String × SearchResult) :=
  ((search_results.map SearchResponse.results).flatten).foldl dedupInsert []

/-! ### Helper lemmas for deduplication -/

/-- Recursive view of the dedup fold: results whose URL is in `seen` are
dropped, fresh URLs are kept and added to `seen`. -/
def dedupAux (seen : List String) : List SearchResult → List (String × SearchResult)
  | [] => []
  | r :: rs =>
      if r.url ∈ seen then dedupAux seen rs
      else (r.url, r) :: dedupAux (r.url :: seen) rs

theorem dedupAux_congr {s₁ s₂ : List String} (rs : List SearchResult)
    (h : ∀ u, u ∈ s₁ ↔ u ∈ s₂) : dedupAux s₁ rs = dedupAux s₂ rs := by
  induction rs generalizing s₁ s₂ with
  | nil => rfl
  | cons r rs ih =>
      simp only [dedupAux]
      by_cases hm : r.url ∈ s₁
      · rw [if_pos hm, if_pos ((h r.url).mp hm)]
        exact ih h
      · rw [if_neg hm, if_neg (fun hc => hm ((h r.url).mpr hc))]
        refine congrArg _ (ih ?_)
        intro u
        simp only [List.mem_cons]
        exact or_congr Iff.rfl (h u)

theorem foldl_dedupInsert (rs : List SearchResult)
    (acc : List (String × SearchResult)) :
    rs.foldl dedupInsert acc = acc ++ dedupAux (acc.map Prod.fst) rs := by
  induction rs generalizing acc with
  | nil => simp [dedupAux]
  | cons r rs ih =>
      simp only [List.foldl_cons, dedupAux, dedupInsert]
      by_cases hm : r.url ∈ acc.map Prod.fst
      · have hany : acc.any (fun p => p.1 = r.url) = true := by
          rcases List.mem_map.mp hm with ⟨p, hp, hurl⟩
          exact List.any_eq_true.mpr ⟨p, hp, by simp [hurl]⟩
        rw [if_pos hany, if_pos hm, ih]
      · have hany : acc.any (fun p => p.1 = r.url) = false := by
          rw [List.any_eq_false]
          intro p hp
          simp only [decide_eq_true_eq]
          intro hurl
          exact hm (List.mem_map.mpr ⟨p, hp, hurl⟩)
        rw [if_neg (by simp [hany]), if_neg hm, ih]
        rw [List.append_assoc]
        refine congrArg _ ?_
        simp only [List.map_append, List.map_cons, List.cons_append,
          List.nil_append, List.singleton_append, List.map_nil,
          List.append_nil]
        refine congrArg _ (dedupAux_congr rs ?_)
        intro u
        simp [List.mem_append, or_comm]

/-- Every key produced by `dedupAux` is fresh: not in `seen`. -/
theorem dedupAux_key_not_seen {seen : List String} {rs : List SearchResult}
    {u : String} {r : SearchResult} (h : (u, r) ∈ dedupAux seen rs) :
    u ∉ seen := by
  induction rs generalizing seen with
  | nil => simp [dedupAux] at h
  | cons r' rs ih =>
      simp only [dedupAux] at h
      by_cases hm : r'.url ∈ seen
      · rw [if_pos hm] at h
        exact ih h
      · rw [if_neg hm] at h
        rcases List.mem_cons.mp h with heq | htail
        · cases heq
          exact hm
        · intro hu
          exact ih htail (List.mem_cons_of_mem _ hu)

/-- The keys of `dedupAux seen rs` are pairwise distinct. -/
theorem dedupAux_keys_nodup (seen : List String) (rs : List SearchResult) :
    ((dedupAux seen rs).map Prod.fst).Nodup := by
  induction rs generalizing seen with
  | nil => simp [dedupAux]
  | cons r rs ih =>
      simp only [dedupAux]
      by_cases hm : r.url ∈ seen
      · rw [if_pos hm]
        exact ih seen
      · rw [if_neg hm]
        simp only [List.map_cons, List.nodup_cons]
        refine ⟨?_, ih (r.url :: seen)⟩
        intro hc
        rcases List.mem_map.mp hc with ⟨⟨u, s⟩, hmem, hfst⟩
        have : u ∉ r.url :: seen := dedupAux_key_not_seen hmem
        simp only [← hfst] at this
        exact this (List.mem_cons_self _ _)

/-- Each entry of `dedupAux seen rs` is the first result in `rs` bearing
its URL. -/
theorem dedupAux_first_occurrence {seen : List String} {rs : List SearchResult}
    {u : String} {r : SearchResult} (h : (u, r) ∈ dedupAux seen rs) :
    rs.find? (fun x => x.url == u) = some r := by
  induction rs generalizing seen with
  | nil => simp [dedupAux] at h
  | cons r' rs ih =>
      simp only [dedupAux] at h
      by_cases hm : r'.url ∈ seen
      · rw [if_pos hm] at h
        have hu : u ∉ seen := dedupAux_key_not_seen h
        have hne : (r'.url == u) = false := by
          simp only [beq_eq_false_iff_ne, ne_eq]
          intro hc
          exact hu (hc ▸ hm)
        rw [List.find?_cons, hne]
        exact ih h
      · rw [if_neg hm] at h
        rcases List.mem_cons.mp h with heq | htail
        · have hu : u = r'.url := congrArg Prod.fst heq
          have hr : r = r' := congrArg Prod.snd heq
          subst hu hr
          rw [List.find?_cons, beq_self_eq_true]
        · have hu : u ∉ r'.url :: seen := dedupAux_key_not_seen htail
          have hne : (r'.url == u) = false := by
            simp only [beq_eq_false_iff_ne, ne_eq]
            intro hc
            exact hu (hc ▸ List.mem_cons_self _ _)
          rw [List.find?_cons, hne]
          exact ih htail

/-- Every result of the input list is represented in `dedupAux`: its URL
was either already seen, or some entry of the output carries it. -/
theorem dedupAux_complete (seen : List String) {rs : List SearchResult}
    {x : SearchResult} (hx : x ∈ rs) :
    x.url ∈ seen ∨ ∃ r, (x.url, r) ∈ dedupAux seen rs := by
  induction rs generalizing seen with
  | nil => simp at hx
  | cons r' rs ih =>
      simp only [dedupAux]
      rcases List.mem_cons.mp hx with heq | htail
      · subst heq
        by_cases hm : x.url ∈ seen
        · exact Or.inl hm
        · rw [if_neg hm]
          exact Or.inr ⟨x, List.mem_cons_self _ _⟩
      · by_cases hm : r'.url ∈ seen
        · rw [if_pos hm]
          exact ih seen htail
        · rw [if_neg hm]
          rcases ih (r'.url :: seen) htail with hseen | ⟨r, hr⟩
          · rcases List.mem_cons.mp hseen with hhead | hold
            · exact Or.inr ⟨r', hhead ▸ List.mem_cons_self _ _⟩
            · exact Or.inl hold
          · exact Or.inr ⟨r, List.mem_cons_of_mem _ hr⟩

/-- Entries of `deduplicate_search_results` in terms of `dedupAux`. -/
theorem deduplicate_eq_dedupAux (search_results : List SearchResponse) :
    deduplicate_search_results search_results =
      dedupAux [] ((search_results.map SearchResponse.results).flatten) := by
  unfold deduplicate_search_results
  rw [foldl_dedupInsert]
  rfl

/-- **C1.** Within one Search Pipeline invocation, the deduplicated output
contains each identityKey (URL) at most once (the key list is `Nodup`);
every entry it retains is the *first* occurrence of its URL in the
flattened result list (flattened query order), so later duplicates — even
ones surfaced by a different query — are dropped; and every surfaced URL
is represented by some retained entry. -/
theorem deduplicate_search_results_unique_first_wins
    (search_results : List SearchResponse) :
    ((deduplicate_search_results search_results).map Prod.fst).Nodup ∧
    (∀ u r, (u, r) ∈ deduplicate_search_results search_results →
      ((search_results.map SearchResponse.results).flatten).find?
        (fun x => x.url == u) = some r) ∧
    (∀ x ∈ (search_results.map SearchResponse.results).flatten,
      ∃ r, (x.url, r) ∈ deduplicate_search_results search_results) := by
  rw [deduplicate_eq_dedupAux]
  refine ⟨dedupAux_keys_nodup _ _, ?_, ?_⟩
  · intro u r hmem
    exact dedupAux_first_occurrence hmem
  · intro x hx
    rcases dedupAux_complete [] hx with hseen | hfound
    · simp at hseen
    · exact hfound

/-- Concrete data used by witnesses: two queries surface the same URL
`u1`; the second occurrence carries different content. -/
def demoA : SearchResult := ⟨"Title A", "u1", "snippet A", some "body A"⟩

def demoB : SearchResult := ⟨"Title B", "u2", "snippet B", some "body B"⟩

def demoA2 : SearchResult := ⟨"Title A dup", "u1", "other snippet", none⟩

def demoResponses : List SearchResponse := [⟨[demoA, demoB]⟩, ⟨[demoA2]⟩]

/-- Witness for C1 at a concrete input: `u1` is surfaced by both queries;
the retained entry for `u1` is the first occurrence `demoA`, and the
duplicate `demoA2` is still represented (by that same URL). -/
theorem deduplicate_search_results_unique_first_wins_witness :
    ((deduplicate_search_results demoResponses).map Prod.fst).Nodup ∧
    ((demoResponses.map SearchResponse.results).flatten).find?
      (fun x => x.url == "u1") = some demoA ∧
    ∃ r, (demoA2.url, r) ∈ deduplicate_search_results demoResponses :=
  ⟨(deduplicate_search_results_unique_first_wins demoResponses).1,
   (deduplicate_search_results_unique_first_wins demoResponses).2.1 "u1" demoA
     (by decide),
   (deduplicate_search_results_unique_first_wins demoResponses).2.2 demoA2
     (by decide)⟩

/-! ### Per-query search: one entry per query, errors isolated -/

theorem foldl_append_singleton {α β : Type} (f : α → β) (l : List α)
    (acc : List β) :
    l.foldl (fun a x => a ++ [f x]) acc = acc ++ l.map f := by
  induction l generalizing acc with
  | nil => simp
  | cons x l ih => simp [ih]

/-- `ddgs_search_multiple` is the per-query map: each query contributes the
formatted provider results, or `{'results': []}` when the provider raised. -/
theorem ddgs_search_multiple_eq_map {ε : Type} (provider : Provider ε)
    (search_queries : List String) (max_results : Nat) (region safesearch : String) :
    ddgs_search_multiple provider search_queries max_results region safesearch =
      search_queries.map (fun query =>
        match provider query max_results region safesearch with
        | Except.ok results => ⟨results.map formatRawResult⟩
        | Except.error _ => ⟨[]⟩) := by
  unfold ddgs_search_multiple
  rw [foldl_append_singleton]
  rfl

/-- **C10.** The multi-query search function returns exactly one entry per
query, in query order: the output length equals the query count, and the
`i`-th entry holds the formatted results of the `i`-th query — an entry
with an empty results list when that query's provider call raised.  The
function is total (each provider call is wrapped in `try/except`, so it
never raises). -/
theorem ddgs_search_multiple_one_entry_per_query {ε : Type}
    (provider : Provider ε) (search_queries : List String)
    (max_results : Nat) (region safesearch : String) :
    (ddgs_search_multiple provider search_queries max_results region
        safesearch).length = search_queries.length ∧
    ∀ i (h : i < search_queries.length),
      (ddgs_search_multiple provider search_queries max_results region
          safesearch).get ⟨i, by rw [ddgs_search_multiple_eq_map]; simpa⟩ =
        match provider (search_queries.get ⟨i, h⟩) max_results region
            safesearch with
        | Except.ok results => ⟨results.map formatRawResult⟩
        | Except.error _ => ⟨[]⟩ := by
  constructor
  · rw [ddgs_search_multiple_eq_map]
    exact List.length_map _ _
  · intro i h
    have := List.get_of_eq
      (ddgs_search_multiple_eq_map provider search_queries max_results
        region safesearch) ⟨i, by rw [ddgs_search_multiple_eq_map]; simpa⟩
    rw [this, List.get_map]

/-- Concrete provider for witnesses: raises on query `"bad"`, returns one
raw result on anything else. -/
def demoProvider : Provider Unit := fun query _ _ _ =>
  if query = "bad" then Except.error ()
  else Except.ok [⟨some "Title", some "u1", some "body"⟩]

/-- Witness for C10: two queries, the second raising in the provider —
the output has one entry per query and the erroring query's entry is
empty. -/
theorem ddgs_search_multiple_one_entry_per_query_witness :
    (ddgs_search_multiple demoProvider ["good", "bad"] 3 "us-en"
        "moderate").length = 2 ∧
    (ddgs_search_multiple demoProvider ["good", "bad"] 3 "us-en"
        "moderate").get ⟨1, by decide⟩ = ⟨[]⟩ := by
  refine ⟨(ddgs_search_multiple_one_entry_per_query demoProvider
    ["good", "bad"] 3 "us-en" "moderate").1, ?_⟩
  have h := (ddgs_search_multiple_one_entry_per_query demoProvider
    ["good", "bad"] 3 "us-en" "moderate").2 1 (by decide)
  exact h.trans (by decide)

/-- **C2.** Provider errors are isolated per query: the batch always
continues through all queries (the output keeps one entry per query), a
provider error for one query yields the empty result set for that query
only, and the entry of any query depends only on the provider's behaviour
at that query — so a single-query error never aborts, raises past, or
perturbs the rest of the batch. -/
theorem ddgs_search_multiple_error_isolated {ε : Type}
    (p q : Provider ε) (search_queries : List String)
    (max_results : Nat) (region safesearch : String) :
    (ddgs_search_multiple p search_queries max_results region
        safesearch).length = search_queries.length ∧
    (∀ i (h : i < search_queries.length) (e : ε),
      p (search_queries.get ⟨i, h⟩) max_results region safesearch =
          Except.error e →
      (ddgs_search_multiple p search_queries max_results region
          safesearch).get ⟨i, by rw [ddgs_search_multiple_eq_map]; simpa⟩ =
        ⟨[]⟩) ∧
    (∀ i (h : i < search_queries.length),
      p (search_queries.get ⟨i, h⟩) max_results region safesearch =
        q (search_queries.get ⟨i, h⟩) max_results region safesearch →
      (ddgs_search_multiple p search_queries max_results region
          safesearch).get ⟨i, by rw [ddgs_search_multiple_eq_map]; simpa⟩ =
      (ddgs_search_multiple q search_queries max_results region
          safesearch).get ⟨i, by rw [ddgs_search_multiple_eq_map]; simpa⟩) := by
  have hmapp := ddgs_search_multiple_eq_map p search_queries max_results
    region safesearch
  have hmapq := ddgs_search_multiple_eq_map q search_queries max_results
    region safesearch
  refine ⟨by rw [hmapp]; exact List.length_map _ _, ?_, ?_⟩
  · intro i h e herr
    rw [List.get_of_eq hmapp, List.get_map, herr]
  · intro i h hagree
    rw [List.get_of_eq hmapp, List.get_of_eq hmapq, List.get_map,
      List.get_map, hagree]

/-- Concrete provider for witnesses that never fails. -/
def demoOkProvider : Provider Unit := fun _ _ _ _ =>
  Except.ok [⟨some "Title", some "u1", some "body"⟩]

/-- Witness for C2 at a concrete input: with queries `["good", "bad"]`
and a provider raising exactly on `"bad"`, the batch keeps both entries,
the erroring entry is empty, and the `"good"` entry agrees with the one a
never-failing provider produces. -/
theorem ddgs_search_multiple_error_isolated_witness :
    (ddgs_search_multiple demoProvider ["good", "bad"] 3 "us-en"
        "moderate").length = 2 ∧
    (ddgs_search_multiple demoProvider ["good", "bad"] 3 "us-en"
        "moderate").get ⟨1, by decide⟩ = ⟨[]⟩ ∧
    (ddgs_search_multiple demoProvider ["good", "bad"] 3 "us-en"
        "moderate").get ⟨0, by decide⟩ =
      (ddgs_search_multiple demoOkProvider
        ["good", "bad"] 3 "us-en" "moderate").get ⟨0, by decide⟩ := by
  have h := ddgs_search_multiple_error_isolated demoProvider demoOkProvider
    ["good", "bad"] 3 "us-en" "moderate"
  refine ⟨h.1, ?_, ?_⟩
  · exact h.2.1 1 (by decide) () rfl
  · exact h.2.2 0 (by decide) rfl

/-! ### Fallback-Invoker call sites -/

/-- The structured-output schema of the summarization call site
(`state_research.Summary`, whose fields `summary` and `key_excerpts` are
read in utils.py lines 136-137). -/
structure Summary where
  summary : String
  key_excerpts : String
deriving Repr, DecidableEq

/-- utils.py lines 111-147, `summarize_webpage_content`.  The structured
model call (with prompt construction folded into `buildPrompt`, which in
the source formats `summarize_webpage_prompt` with the content and the
current date) is an external effect that may raise; the whole call sits
in one `try/except`, whose handler returns the input truncated to its
first 1000 characters with `"..."` appended when it was longer.  Both
branches return a value (`Except.ok`); no exception escapes. -/
def summarize_webpage_content (invoke : String → Except ε Summary)
    (buildPrompt : String → String) (webpage_content : String) :
    Except ε String :=
  match invoke (buildPrompt webpage_content) with
  | Except.ok summary =>
      Except.ok ("<summary>\n" ++ summary.summary ++ "\n</summary>\n\n" ++
        "<key_excerpts>\n" ++ summary.key_excerpts ++ "\n</key_excerpts>")
  | Except.error _ =>
      Except.ok (if webpage_content.length > 1000 then
        webpage_content.take 1000 ++ "..." else webpage_content)

/-- The structured-output schema of the brief-generation call site
(`state_scope.ResearchQuestion`, whose field `research_brief` is read in
research_agent_scope.py line 57). -/
structure ResearchQuestion where
  research_brief : String
deriving Repr, DecidableEq

/-- The state update returned by `write_research_brief`
(research_agent_scope.py lines 149-153): the brief itself, the seed
message handed to the supervisor (`f"{research_brief}."`) and the fixed
confirmation message shown to the user. -/
structure BriefUpdate where
  research_brief : String
  supervisor_message : String
  confirmation : String
deriving Repr, DecidableEq

/-- research_agent_scope.py line 146: the fixed confirmation message. -/
def briefConfirmation : String :=
  "I\x27ve analyzed your request and will now begin comprehensive UI/UX design research to build a knowledge base for your interface design project."

/-- research_agent_scope.py line 139: the hardcoded final-fallback brief,
used when the fallback text generation itself raised. -/
def finalFallbackBrief : String :=
  "I\x27ll begin comprehensive UI/UX design research based on your request. Let me gather detailed information about the interface design patterns and user experience considerations for your specified domain."

/-- research_agent_scope.py lines 149-153: package a brief into the
returned state update. -/
def mkBriefUpdate (research_brief : String) : BriefUpdate :=
  ⟨research_brief, research_brief ++ ".", briefConfirmation⟩

/-- research_agent_scope.py lines 93-132: the ordered JSON-extraction
strategies of the fallback tier.  Each approach (regex isolation of a
JSON object, code-fence extraction, cleaned re-parse) is a pure string
function abstracted as a parameter returning the extracted
`research_brief` field, or `none` when nothing matched or `json.loads`
failed (those exceptions are caught locally by the inner
`try/except: pass` blocks); a successful parse may still yield `""`
(`parsed_json.get("research_brief", "")`).  A later approach runs only
while the brief is still falsy (`if not research_brief`), and if all
approaches leave it empty the raw model response is used verbatim
(approach 4, line 132). -/
def tier2_extract (a1 a2 a3 : String → Option String)
    (raw_content : String) : String :=
  let b1 := (a1 raw_content).getD ""
  let b2 := if b1 = "" then (a2 raw_content).getD "" else b1
  let b3 := if b2 = "" then (a3 raw_content).getD "" else b2
  if b3 = "" then raw_content else b3

/-- research_agent_scope.py lines 36-153, `write_research_brief`.  Tier 1
asks the model for a schema-validated `ResearchQuestion`
(`structuredInvoke`, may raise); only if it raises, tier 2 re-prompts for
plain text (`textInvoke`, may raise) and runs the tolerant extraction
strategies on the stripped response; only if that model call raises too,
tier 3 falls back to the hardcoded brief.  Every branch returns
`Except.ok`. -/
def write_research_brief (structuredInvoke : String → Except ε ResearchQuestion)
    (textInvoke : String → Except ε String) (a1 a2 a3 : String → Option String)
    (prompt_content simple_prompt : String) : Except ε BriefUpdate :=
  match structuredInvoke prompt_content with
  | Except.ok response => Except.ok (mkBriefUpdate response.research_brief)
  | Except.error _ =>
      match textInvoke simple_prompt with
      | Except.ok content =>
          Except.ok (mkBriefUpdate (tier2_extract a1 a2 a3 content.trim))
      | Except.error _ => Except.ok (mkBriefUpdate finalFallbackBrief)

/-- **C3.** The Fallback-Invoker call sites always return a value and
never propagate an exception: for every behaviour of the external model
(any outcome of each tier's call), `write_research_brief` and
`summarize_webpage_content` produce `Except.ok`; moreover each tier is
attempted only if the previous one raises — a successful tier 1 fixes the
result regardless of the later tiers, tier 2 is used exactly when tier 1
raised, and the final tier (a hardcoded value, resp. input truncation,
both pure) decides the result exactly when every model call raised. -/
theorem fallback_invoker_never_raises {ε : Type}
    (structuredInvoke : String → Except ε ResearchQuestion)
    (textInvoke : String → Except ε String) (a1 a2 a3 : String → Option String)
    (prompt_content simple_prompt : String)
    (invoke : String → Except ε Summary) (buildPrompt : String → String)
    (webpage_content : String) :
    (∃ v, write_research_brief structuredInvoke textInvoke a1 a2 a3
        prompt_content simple_prompt = Except.ok v) ∧
    (∃ s, summarize_webpage_content invoke buildPrompt webpage_content =
        Except.ok s) ∧
    (∀ q : ResearchQuestion,
      write_research_brief (fun _ => Except.ok q) textInvoke a1 a2 a3
        prompt_content simple_prompt =
      Except.ok (mkBriefUpdate q.research_brief)) ∧
    (∀ (e : ε) (raw : String),
      write_research_brief (fun _ => Except.error e)
        (fun _ => Except.ok raw) a1 a2 a3 prompt_content simple_prompt =
      Except.ok (mkBriefUpdate (tier2_extract a1 a2 a3 raw.trim))) ∧
    (∀ e e₂ : ε,
      write_research_brief (fun _ => Except.error e)
        (fun _ => Except.error e₂) a1 a2 a3 prompt_content simple_prompt =
      Except.ok (mkBriefUpdate finalFallbackBrief)) := by
  refine ⟨?_, ?_, fun q => rfl, fun e raw => rfl, fun e e₂ => rfl⟩
  · unfold write_research_brief
    cases structuredInvoke prompt_content with
    | ok response => exact ⟨_, rfl⟩
    | error _ =>
        cases textInvoke simple_prompt with
        | ok content => exact ⟨_, rfl⟩
        | error _ => exact ⟨_, rfl⟩
  · unfold summarize_webpage_content
    cases invoke (buildPrompt webpage_content) with
    | ok summary => exact ⟨_, rfl⟩
    | error _ => exact ⟨_, rfl⟩

/-- **Counterexample to C8 as stated.**  When every tier of the
webpage-summarization call site fails, the returned value is *not* a
statically-worded placeholder independent of the raw input: with the
model raising on every call, input `"A"` yields `"A"` and input `"B"`
yields `"B"` — the fallback value is the (truncated) raw input itself. -/
theorem summarize_fallback_depends_on_input :
    summarize_webpage_content (fun _ => Except.error ()) id "A" =
      Except.ok "A" ∧
    summarize_webpage_content (fun _ => Except.error ()) id "B" =
      Except.ok "B" ∧
    ("A" : String) ≠ "B" := by
  refine ⟨rfl, rfl, by decide⟩

/-- **C8 (amended).**  When every structured-output and parsing tier
fails by raising, the brief-generation call site does return the
hardcoded, statically-worded placeholder (independent of the inputs);
the webpage-summarization call site instead returns the raw input
truncated to its first 1000 characters (with `"..."` appended when
longer), a degraded value that depends on the raw input. -/
theorem fallback_placeholder_per_call_site {ε : Type} (e e₂ : ε) :
    (∀ (a1 a2 a3 : String → Option String) (prompt_content simple_prompt : String),
      write_research_brief (fun _ => Except.error e)
        (fun _ => Except.error e₂) a1 a2 a3 prompt_content simple_prompt =
      Except.ok (mkBriefUpdate finalFallbackBrief)) ∧
    (∀ (buildPrompt : String → String) (webpage_content : String),
      summarize_webpage_content (fun _ => Except.error e) buildPrompt
        webpage_content =
      Except.ok (if webpage_content.length > 1000 then
        webpage_content.take 1000 ++ "..." else webpage_content)) :=
  ⟨fun _ _ _ _ _ => rfl, fun _ _ => rfl⟩

/-! ### Processing and rendering of deduplicated results -/

/-- One processed result as stored by `process_search_results`
(utils.py lines 187-190): the document's title and its content (snippet
or summary). -/
structure Summarized where
  title : String
  content : String
deriving Repr, DecidableEq

/-- Python dict assignment `d[k] = v` on an insertion-ordered dictionary:
an existing key keeps its position and gets the new value, a fresh key is
appended. -/
def dictSet (d : List (String × α)) (k : String) (v : α) : List (String × α) :=
  if d.any (fun p => p.1 = k) then
    d.map (fun p => if p.1 = k then (k, v) else p)
  else d ++ [(k, v)]

/-- utils.py lines 168-192, `process_search_results`: for each unique
result, if `result.get("raw_content")` is falsy (key absent or empty
string) the stored content is the snippet `result['content']` verbatim,
otherwise it is the summarization of the raw content; the stored title is
`result['title']` in both branches.  The summarizer is passed in as a
function (in the source it is `summarize_webpage_content`, which never
raises — see `fallback_invoker_never_raises`). -/
def process_search_results (summarize : String → String)
    (unique_results : List (String × SearchResult)) :
    List (String × Summarized) :=
  unique_results.foldl
    (fun summarized_results p =>
      let content := match p.2.raw_content with
        | none => p.2.content
        | some rc => if rc = "" then p.2.content else summarize rc
      dictSet summarized_results p.1 ⟨p.2.title, content⟩)
    []

/-- On key-disjoint input, the dict-building fold of
`process_search_results` is an append of the per-entry map. -/
theorem foldl_dictSet_eq_map (summarize : String → String)
    (l : List (String × SearchResult)) :
    ∀ acc : List (String × Summarized),
    (∀ k, k ∈ l.map Prod.fst → k ∉ acc.map Prod.fst) →
    ((l.map Prod.fst).Nodup) →
    l.foldl
      (fun summarized_results p =>
        let content := match p.2.raw_content with
          | none => p.2.content
          | some rc => if rc = "" then p.2.content else summarize rc
        dictSet summarized_results p.1 ⟨p.2.title, content⟩)
      acc =
    acc ++ l.map (fun p =>
      (p.1, (⟨p.2.title, match p.2.raw_content with
        | none => p.2.content
        | some rc => if rc = "" then p.2.content else summarize rc⟩ :
        Summarized))) := by
  induction l with
  | nil => intro acc _ _; simp
  | cons p l ih =>
      intro acc hdisj hnd
      have hfresh : p.1 ∉ acc.map Prod.fst :=
        hdisj p.1 (by simp)
      have hany : acc.any (fun q => q.1 = p.1) = false := by
        rw [List.any_eq_false]
        intro q hq
        simp only [decide_eq_true_eq]
        intro hk
        exact hfresh (List.mem_map.mpr ⟨q, hq, hk⟩)
      simp only [List.foldl_cons, List.map_cons]
      rw [show dictSet acc p.1 _ = acc ++ [(p.1, _)] from by
        unfold dictSet; rw [if_neg (by simp [hany])]]
      rw [ih (acc ++ [(p.1, _)]) ?_ ?_]
      · rw [List.append_assoc]
        rfl
      · intro k hk
        simp only [List.map_append, List.mem_append, List.map_cons,
          List.map_nil, List.mem_singleton, not_or]
        refine ⟨hdisj k (by simp [hk]), ?_⟩
        have hhead : p.1 ∉ l.map Prod.fst :=
          (List.nodup_cons.mp (by simpa using hnd)).1
        intro hkp
        rw [hkp] at hk
        exact hhead hk
      · exact (List.nodup_cons.mp (by simpa using hnd)).2

/-- On a list with `Nodup` keys, `find?` after a key-preserving map
returns the mapped entry. -/
theorem find?_map_of_nodup (f : SearchResult → Summarized)
    {l : List (String × SearchResult)} {url : String} {r : SearchResult}
    (hnd : (l.map Prod.fst).Nodup) (hmem : (url, r) ∈ l) :
    (l.map (fun p => (p.1, f p.2))).find? (fun p => p.1 == url) =
      some (url, f r) := by
  induction l with
  | nil => simp at hmem
  | cons p l ih =>
      simp only [List.map_cons, List.nodup_cons] at hnd
      rcases List.mem_cons.mp hmem with heq | htail
      · have h1 : p.1 = url := (congrArg Prod.fst heq).symm
        have h2 : p.2 = r := (congrArg Prod.snd heq).symm
        simp only [List.map_cons, List.find?_cons, h1, h2,
          beq_self_eq_true]
      · have hne : (p.1 == url) = false := by
          simp only [beq_eq_false_iff_ne, ne_eq]
          intro hc
          exact hnd.1 (hc ▸ List.mem_map.mpr ⟨(url, r), htail, rfl⟩)
        simp only [List.map_cons, List.find?_cons, hne]
        exact ih hnd.2 htail

/-- **C7.** For each unique document handed to `process_search_results`:
when it exposes no extended body (its `raw_content` is absent or the
empty string) its short snippet is stored verbatim as its content;
otherwise the summarizer (the Fallback-Invoker call site) is invoked on
the raw content and its result is stored.  The stored title is the
document's title in both branches. -/
theorem process_search_results_snippet_or_summary
    (summarize : String → String)
    (unique_results : List (String × SearchResult))
    (hnd : (unique_results.map Prod.fst).Nodup) :
    ∀ url r, (url, r) ∈ unique_results →
      (process_search_results summarize unique_results).find?
          (fun p => p.1 == url) =
        some (url, ⟨r.title,
          match r.raw_content with
          | none => r.content
          | some rc => if rc = "" then r.content else summarize rc⟩) := by
  intro url r hmem
  unfold process_search_results
  rw [foldl_dictSet_eq_map summarize unique_results [] (by simp) hnd]
  rw [List.nil_append]
  exact find?_map_of_nodup
    (fun x => ⟨x.title, match x.raw_content with
      | none => x.content
      | some rc => if rc = "" then x.content else summarize rc⟩)
    hnd hmem

/-- Witness for C7 at concrete inputs: a document with an extended body
is summarized (here with a marker summarizer), one with an empty body
keeps its snippet; titles are preserved. -/
theorem process_search_results_snippet_or_summary_witness :
    (process_search_results (fun s => "SUM:" ++ s)
        [("u1", demoA), ("u3", ⟨"Title C", "u3", "snippet C", some ""⟩)]).find?
      (fun p => p.1 == "u1") = some ("u1", ⟨"Title A", "SUM:body A"⟩) ∧
    (process_search_results (fun s => "SUM:" ++ s)
        [("u1", demoA), ("u3", ⟨"Title C", "u3", "snippet C", some ""⟩)]).find?
      (fun p => p.1 == "u3") = some ("u3", ⟨"Title C", "snippet C"⟩) := by
  constructor
  · exact (process_search_results_snippet_or_summary (fun s => "SUM:" ++ s)
      [("u1", demoA), ("u3", ⟨"Title C", "u3", "snippet C", some ""⟩)]
      (by decide) "u1" demoA (by decide)).trans (by decide)
  · exact (process_search_results_snippet_or_summary (fun s => "SUM:" ++ s)
      [("u1", demoA), ("u3", ⟨"Title C", "u3", "snippet C", some ""⟩)]
      (by decide) "u3" ⟨"Title C", "u3", "snippet C", some ""⟩
      (by decide)).trans (by decide)

/-- utils.py line 204: the explicit "no results" sentinel returned when
the processed result set is empty. -/
def noResultsSentinel : String :=
  "No valid search results found. Please try different search queries or use a different search API."

/-- utils.py lines 209-212, the loop body of `format_search_output`: the
section appended for the `i`-th source (1-based), carrying the source's
title, its URL and its summary, closed by an 80-dash rule. -/
def sourceSection (i : Nat) (url : String) (result : Summarized) : String :=
  "\n\n--- SOURCE " ++ toString i ++ ": " ++ result.title ++ " ---\n" ++
  ("URL: " ++ url ++ "\n\n") ++
  ("SUMMARY:\n" ++ result.content ++ "\n\n") ++
  (String.mk (List.replicate 80 '-') ++ "\n")

/-- utils.py lines 194-214, `format_search_output`: the sentinel on an
empty input, otherwise the header followed by one section per entry, the
counter enumerating from 1 (`enumerate(summarized_results.items(), 1)`). -/
def format_search_output (summarized_results : List (String × Summarized)) :
    String :=
  if summarized_results.isEmpty then noResultsSentinel
  else
    (summarized_results.foldl
      (fun (acc : String × Nat) p =>
        (acc.1 ++ sourceSection acc.2 p.1 p.2, acc.2 + 1))
      ("Search results: \n\n", 1)).1

/-- Specification-side rendering: the concatenation of the sections of
`l`, numbered contiguously from `i` in list order. -/
def sectionsFrom (i : Nat) : List (String × Summarized) → String
  | [] => ""
  | p :: l => sourceSection i p.1 p.2 ++ sectionsFrom (i + 1) l

/-- The formatting fold produces the accumulator followed by the
contiguously numbered sections. -/
theorem foldl_format_eq_sections (l : List (String × Summarized)) :
    ∀ (acc : String) (i : Nat),
    (l.foldl
      (fun (a : String × Nat) p =>
        (a.1 ++ sourceSection a.2 p.1 p.2, a.2 + 1))
      (acc, i)).1 = acc ++ sectionsFrom i l := by
  induction l with
  | nil => intro acc i; simp [sectionsFrom, String.append_empty]
  | cons p l ih =>
      intro acc i
      simp only [List.foldl_cons, sectionsFrom]
      rw [ih (acc ++ sourceSection i p.1 p.2) (i + 1), String.append_assoc]

/-- A string starting with the results header is never the sentinel and
never empty. -/
theorem header_append_ne (t : String) :
    ("Search results: \n\n" ++ t) ≠ noResultsSentinel ∧
    ("Search results: \n\n" ++ t) ≠ "" := by
  constructor
  · intro h
    have h1 : ("Search results: \n\n" ++ t).data.head? = some 'S' := by
      rw [String.data_append]; rfl
    rw [h] at h1
    exact absurd h1 (by decide)
  · intro h
    have h1 : ("Search results: \n\n" ++ t).data.head? = some 'S' := by
      rw [String.data_append]; rfl
    rw [h] at h1
    exact absurd h1 (by decide)

/-- utils.py lines 218-257, the `ddgs_search` tool: search the single
query, deduplicate by URL, process (snippet or summarization), format.
The summarizer is a parameter (in the source, `summarize_webpage_content`
over the configured model). -/
def ddgs_search (provider : Provider ε) (summarize : String → String)
    (query : String) (max_results : Nat := 3) (region : String := "us-en")
    (safesearch : String := "moderate") : String :=
  format_search_output
    (process_search_results summarize
      (deduplicate_search_results
        (ddgs_search_multiple provider [query] max_results region safesearch)))

/-- **C4.** The search output formatter returns the explicit "no results"
sentinel (a non-empty string, so never the empty string) exactly when the
processed result set is empty; in particular, when the provider raises
for the whole invocation the `ddgs_search` tool still returns the
sentinel.  Callers can therefore distinguish "searched, found nothing"
from genuine results. -/
theorem format_search_output_sentinel_iff_empty
    (summarized_results : List (String × Summarized)) :
    (format_search_output summarized_results = noResultsSentinel ↔
      summarized_results = []) ∧
    format_search_output summarized_results ≠ "" ∧
    (∀ (ε : Type) (e : ε) (summarize : String → String)
        (query : String) (max_results : Nat) (region safesearch : String),
      ddgs_search (fun _ _ _ _ => Except.error e) summarize query
        max_results region safesearch = noResultsSentinel) := by
  refine ⟨⟨?_, ?_⟩, ?_, fun ε e summarize query mr rg ss => rfl⟩
  · intro h
    by_contra hne
    have hcons : ¬ summarized_results.isEmpty := by
      simpa [List.isEmpty_iff] using hne
    unfold format_search_output at h
    rw [if_neg hcons] at h
    rw [foldl_format_eq_sections] at h
    exact (header_append_ne (sectionsFrom 1 summarized_results)).1 h
  · rintro rfl
    rfl
  · intro h
    by_cases hemp : summarized_results.isEmpty
    · unfold format_search_output at h
      rw [if_pos hemp] at h
      exact absurd h (by decide)
    · unfold format_search_output at h
      rw [if_neg hemp, foldl_format_eq_sections] at h
      exact (header_append_ne (sectionsFrom 1 summarized_results)).2 h

/-- **C6.** For every non-empty processed result set, the rendered output
is the header followed by exactly one section per source, in insertion
(first-occurrence) order, numbered contiguously starting at 1, each
section carrying the source's title, its URL and its summary
(`sourceSection`/`sectionsFrom` spell the sections out). -/
theorem format_search_output_sections
    (summarized_results : List (String × Summarized))
    (h : summarized_results ≠ []) :
    format_search_output summarized_results =
      "Search results: \n\n" ++ sectionsFrom 1 summarized_results := by
  have hne : ¬ summarized_results.isEmpty := by
    simpa [List.isEmpty_iff] using h
  unfold format_search_output
  rw [if_neg hne, foldl_format_eq_sections]

/-- Witness for C6 at a concrete two-source input: the output is the
header plus section 1 for the first source and section 2 for the
second. -/
theorem format_search_output_sections_witness :
    format_search_output
        [("u1", ⟨"Title A", "summary A"⟩), ("u2", ⟨"Title B", "summary B"⟩)] =
      "Search results: \n\n" ++
        (sourceSection 1 "u1" ⟨"Title A", "summary A"⟩ ++
          (sourceSection 2 "u2" ⟨"Title B", "summary B"⟩ ++ "")) :=
  format_search_output_sections
    [("u1", ⟨"Title A", "summary A"⟩), ("u2", ⟨"Title B", "summary B"⟩)]
    (by decide)

/-! ### The reflection pseudo-tool -/

/-- utils.py lines 259-286, `think_tool`: a pure function of the
reflection string alone — it receives no research state, performs only
logging, and returns the confirmation f-string
`f"Reflection recorded: {reflection}"`. -/
def think_tool (reflection : String) : String :=
  "Reflection recorded: " ++ reflection

/-- Executing the reflection pseudo-tool against any external research
state: since the source function neither receives nor returns state, the
tool execution step pairs the confirmation with the state unchanged. -/
def runThinkTool (state : σ) (reflection : String) : String × σ :=
  (think_tool reflection, state)

/-- **C9.** The reflection pseudo-tool is a no-op for external state and
deterministically returns `"Reflection recorded: "` followed by the
reflection verbatim: for every reflection string and every ambient
research state, the confirmation is exactly that string and the state
component is returned unchanged. -/
theorem think_tool_reflection_noop (σ : Type) (state : σ) (reflection : String) :
    think_tool reflection = "Reflection recorded: " ++ reflection ∧
    runThinkTool state reflection =
      ("Reflection recorded: " ++ reflection, state) :=
  ⟨rfl, rfl⟩

/-! ### The Research Worker budget (modelled from the spec) -/

/-- Modelled from the spec: the per-cycle decision of the reasoning
capability driving a Research Worker — either the explicit "research
complete" signal, or a request to issue one more tool invocation (a
search or a reflection).  The module implementing the worker loop
(`multi_agent_supervisor` / the researcher agent, imported by
`research_agent_full.py`) is not under `src/`; §4.2 of the spec is the
authority here. -/
inductive WorkerDecision where
  | complete
  | invokeTool
deriving Repr, DecidableEq

/-- Modelled from the spec (§4.2): the bounded Research Worker loop.  The
hard stop conditions are checked *before* each cycle: the loop stops when
`toolCallCount` has reached the configured ceiling or when the reasoning
capability signals completion; otherwise the cycle issues one tool
invocation and loops.  Returns the final tool-invocation count. -/
def workerRun (ceiling : Nat) (policy : Nat → WorkerDecision)
    (toolCallCount : Nat) : Nat :=
  if _h : ceiling ≤ toolCallCount then toolCallCount
  else
    match policy toolCallCount with
    | WorkerDecision.complete => toolCallCount
    | WorkerDecision.invokeTool => workerRun ceiling policy (toolCallCount + 1)
termination_by ceiling - toolCallCount
decreasing_by omega

theorem workerRun_le_aux (ceiling : Nat) (policy : Nat → WorkerDecision) :
    ∀ (n toolCallCount : Nat), ceiling - toolCallCount ≤ n →
      workerRun ceiling policy toolCallCount ≤ max ceiling toolCallCount := by
  intro n
  induction n with
  | zero =>
      intro toolCallCount h
      have hc : ceiling ≤ toolCallCount := by omega
      rw [workerRun, dif_pos hc]
      exact le_max_right _ _
  | succ n ih =>
      intro toolCallCount h
      rw [workerRun]
      by_cases hc : ceiling ≤ toolCallCount
      · rw [dif_pos hc]
        exact le_max_right _ _
      · rw [dif_neg hc]
        cases policy toolCallCount with
        | complete => exact le_max_right _ _
        | invokeTool =>
            have hrec := ih (toolCallCount + 1) (by omega)
            have hmax : max ceiling (toolCallCount + 1) = ceiling := by omega
            rw [hmax] at hrec
            exact hrec.trans (le_max_left _ _)

/-- **C5.** (spec-modelled) A Research Worker configured with tool-call
ceiling `N` issues at most `N` tool invocations, for *every* behaviour of
the reasoning capability — including one that keeps requesting more tool
calls forever: a worker started at count 0 ends with a count of at most
`N`, and in general the loop never grows the count beyond
`max N toolCallCount` (the ceiling check happens before each cycle). -/
theorem worker_respects_tool_budget (ceiling : Nat)
    (policy : Nat → WorkerDecision) :
    workerRun ceiling policy 0 ≤ ceiling ∧
    ∀ toolCallCount, workerRun ceiling policy toolCallCount ≤
      max ceiling toolCallCount := by
  constructor
  · have := workerRun_le_aux ceiling policy (ceiling - 0) 0 (by omega)
    simpa using this
  · intro toolCallCount
    exact workerRun_le_aux ceiling policy (ceiling - toolCallCount)
      toolCallCount (by omega)

end DeepResearch
